import Mathlib

set_option maxHeartbeats 1000000

namespace ActivityDashboard

/-! Shallow embedding of the parse-and-derive core of
`src/activity_dashboard.py` (`load_and_parse_data` and its helpers).
Strings are processed as `List Char`; Python `str.strip`, `str.split`,
`str.isdigit`, `int(...)` on digit strings, and the day-header regular
expression `(\d{1,2}/\d{1,2}/\d{2})\s+(\w+)\s+(\d{4})-(\d{4})` (anchored at
the start by `re.match`, with no end anchor) are modelled character by
character.  Python `float` division for the hour fields is modelled with
`Rat` (`x / 60` as the exact rational `mkRat x 60`); Python `int`
arithmetic with `Int`/`Nat`. -/

/-- Whitespace as stripped by Python `str.strip` and matched by `\s`
(ASCII range). -/
def isWs (c : Char) : Bool :=
  c = ' ' || c = '\t' || c = '\n' || c = '\r' || c = '\x0b' || c = '\x0c'

/-- Word characters matched by `\w` (ASCII range). -/
def isWordChar (c : Char) : Bool :=
  c.isAlphanum || c = '_'

/-- Python `str.strip`: drop whitespace from both ends. -/
def trimCh (cs : List Char) : List Char :=
  ((cs.dropWhile isWs).reverse.dropWhile isWs).reverse

/-- Split a character list at every occurrence of `sep`, keeping empty
fragments: Python `str.split(sep)`. -/
def splitOnCh (sep : Char) : List Char → List (List Char)
  | [] => [[]]
  | c :: rest =>
    if c = sep then [] :: splitOnCh sep rest
    else
      match splitOnCh sep rest with
      | g :: gs => (c :: g) :: gs
      | [] => [[c]]

/-- Break a character list at the first occurrence of `sep`, or `none` if
`sep` does not occur. -/
def breakAt (sep : Char) : List Char → Option (List Char × List Char)
  | [] => none
  | c :: rest =>
    if c = sep then some ([], rest)
    else (breakAt sep rest).map (fun p => (c :: p.1, p.2))

/-- Python `str.split(' ', 2)`: split on single space characters, at most
twice; consecutive spaces yield empty fields, and the third field keeps any
remaining spaces. -/
def pySplitSpace2 (cs : List Char) : List (List Char) :=
  match breakAt ' ' cs with
  | none => [cs]
  | some (a, r1) =>
    match breakAt ' ' r1 with
    | none => [a, r1]
    | some (b, r2) => [a, b, r2]

/-- Numeric value of a digit string (Python `int` on a string of digits). -/
def digitsVal (cs : List Char) : Nat :=
  cs.foldl (fun n c => 10 * n + (c.toNat - 48)) 0

/-- Python `int(s)` restricted to the non-empty all-digit strings the
pipeline produces; anything else raises and is modelled as `none`. -/
def strToNat (cs : List Char) : Option Nat :=
  if cs ≠ [] ∧ cs.all Char.isDigit then some (digitsVal cs) else none

/-- Match `\d{1,2}` followed by backtracking as in `re.match`: if two
digits are available they must both be taken (a one-digit fallback would
leave a digit where the regex next requires `/`). -/
def takeDigits1or2 (cs : List Char) : Option (List Char × List Char) :=
  match cs with
  | c0 :: rest =>
    if c0.isDigit then
      match rest with
      | c1 :: rest2 => if c1.isDigit then some ([c0, c1], rest2) else some ([c0], rest)
      | [] => some ([c0], [])
    else none
  | [] => none

/-- Match exactly `n` digits. -/
def takeDigitsExact : Nat → List Char → Option (List Char × List Char)
  | 0, cs => some ([], cs)
  | n + 1, c :: cs =>
    if c.isDigit then (takeDigitsExact n cs).map (fun p => (c :: p.1, p.2)) else none
  | _ + 1, [] => none

/-- Match one or more characters satisfying `p` (greedy, as `\s+`/`\w+`;
maximal munch is exact here because the regex continues with a disjoint
character class). -/
def takeWhile1 (p : Char → Bool) (cs : List Char) : Option (List Char × List Char) :=
  match cs with
  | c :: rest => if p c then some (c :: rest.takeWhile p, rest.dropWhile p) else none
  | [] => none

/-- Day header fields, as captured by the regex groups. -/
structure DayHeader where
  date : String
  day_of_week : String
  start_time : String
  end_time : String
deriving DecidableEq

/-- `parse_day_header`: `re.match` of
`(\d{1,2}/\d{1,2}/\d{2})\s+(\w+)\s+(\d{4})-(\d{4})` against the stripped
line (trailing text after the last group is allowed). -/
def parse_day_header (line : List Char) : Option DayHeader :=
  match takeDigits1or2 (trimCh line) with
  | none => none
  | some (m, r1) =>
    match r1 with
    | '/' :: r2 =>
      match takeDigits1or2 r2 with
      | none => none
      | some (d, r3) =>
        match r3 with
        | '/' :: r4 =>
          match takeDigitsExact 2 r4 with
          | none => none
          | some (y, r5) =>
            match takeWhile1 isWs r5 with
            | none => none
            | some (_, r6) =>
              match takeWhile1 isWordChar r6 with
              | none => none
              | some (w, r7) =>
                match takeWhile1 isWs r7 with
                | none => none
                | some (_, r8) =>
                  match takeDigitsExact 4 r8 with
                  | none => none
                  | some (st, r9) =>
                    match r9 with
                    | '-' :: r10 =>
                      match takeDigitsExact 4 r10 with
                      | none => none
                      | some (en, _) =>
                        some { date := String.mk (m ++ '/' :: d ++ '/' :: y),
                               day_of_week := String.mk w,
                               start_time := String.mk st,
                               end_time := String.mk en }
                    | _ => none
        | _ => none
    | _ => none

/-- Raw activity record, as written in the file. -/
structure RawActivity where
  time : String
  category : String
  description : String
deriving DecidableEq

/-- `parse_activity_record`: `line.strip().split(' ', 2)`, valid only with
at least two fields and a first field of exactly 4 digit characters; the
description defaults to the empty string. -/
def parse_activity_record (line : List Char) : Option RawActivity :=
  match pySplitSpace2 (trimCh line) with
  | time_str :: category :: rest =>
    if time_str.length = 4 ∧ time_str.all Char.isDigit then
      some { time := String.mk time_str,
             category := String.mk category,
             description := String.mk (match rest with | d :: _ => d | [] => []) }
    else none
  | _ => none

/-- `time_to_minutes`: HHMM to minutes since midnight, `none` on a wrong
length, a non-digit, an hour `≥ 24` or a minute `≥ 60`. -/
def time_to_minutes (time_str : String) : Option Nat :=
  let cs := time_str.data
  if cs.length ≠ 4 ∨ ¬ cs.all Char.isDigit then none
  else
    let hours := digitsVal (cs.take 2)
    let minutes := digitsVal (cs.drop 2)
    if hours ≥ 24 ∨ minutes ≥ 60 then none
    else some (hours * 60 + minutes)

/-- Calendar date produced by Python `datetime`. -/
structure Date where
  year : Nat
  month : Nat
  day : Nat
deriving DecidableEq

/-- Leap-year rule used by `datetime`. -/
def isLeap (y : Nat) : Bool :=
  y % 4 = 0 && (y % 100 ≠ 0 || y % 400 = 0)

/-- Length of a month as validated by the `datetime` constructor. -/
def daysInMonth (y m : Nat) : Nat :=
  if m = 2 then (if isLeap y then 29 else 28)
  else if m = 4 ∨ m = 6 ∨ m = 9 ∨ m = 11 then 30
  else 31

/-- Validation performed by `datetime(year, month, day)`; an invalid
combination raises and is caught as `none` by `parse_date`. -/
def mkValidDate (y m d : Nat) : Option Date :=
  if 1 ≤ m ∧ m ≤ 12 ∧ 1 ≤ d ∧ d ≤ daysInMonth y m ∧ 1 ≤ y ∧ y ≤ 9999 then
    some { year := y, month := m, day := d }
  else none

/-- `parse_date`: split `M/D/YY` on `/` into exactly three components,
convert each with `int`, resolve a year below 50 into the 2000s and one of
50 or more into the 1900s, and build a validated date; every failure is
caught and yields `none`. -/
def parse_date (date_str : String) : Option Date :=
  match splitOnCh '/' date_str.data with
  | [ms, ds, ys] =>
    match strToNat ms, strToNat ds, strToNat ys with
    | some month, some day, some y0 =>
      let year := if y0 < 50 then y0 + 2000 else y0 + 1900
      mkValidDate year month day
    | _, _, _ => none
  | _ => none

/-- A day block as accumulated by the parsing loop: header fields plus the
raw (reverse-chronological) activity list. -/
structure RawDay where
  date : String
  day_of_week : String
  start_time : String
  end_time : String
  activities : List RawActivity
deriving DecidableEq

/-- State of the line loop: emitted days and the currently open day. -/
structure ParseState where
  days_data : List RawDay
  current_day : Option RawDay
deriving DecidableEq

/-- One iteration of the line loop: strip the line, skip it when empty,
otherwise a matching header closes and emits the open day and opens a new
one, and any other line is appended as an activity when it parses and a
day is open. -/
def parse_line_step (st : ParseState) (rawLine : List Char) : ParseState :=
  let line := trimCh rawLine
  if line = [] then st
  else
    match parse_day_header line with
    | some h =>
      { days_data := st.days_data ++ (match st.current_day with
          | some d => [d]
          | none => []),
        current_day := some { date := h.date, day_of_week := h.day_of_week,
                              start_time := h.start_time, end_time := h.end_time,
                              activities := [] } }
    | none =>
      match st.current_day with
      | some d =>
        match parse_activity_record line with
        | some a => { st with current_day := some { d with activities := d.activities ++ [a] } }
        | none => st
      | none => st

/-- Emit the final open day after the last line. -/
def flushState (st : ParseState) : List RawDay :=
  st.days_data ++ (match st.current_day with
    | some d => [d]
    | none => [])

/-- The full parsing loop over the lines of the file. -/
def parse_days (lines : List (List Char)) : List RawDay :=
  flushState (lines.foldl parse_line_step { days_data := [], current_day := none })

/-- Derived activity: raw fields plus the computed duration. -/
structure Activity where
  time : String
  category : String
  description : String
  duration_minutes : Option Int
  duration_hours : Rat
deriving DecidableEq

/-- Duration of an activity from its own time to the next (chronological)
activity's time, adding 1440 minutes when the next time is numerically
smaller (midnight crossover); an invalid time on either side gives a null
duration.  `duration_hours` is `duration / 60 if duration else 0`. -/
def withDuration (a b : RawActivity) : Activity :=
  match time_to_minutes a.time, time_to_minutes b.time with
  | some curr_minutes, some next_minutes =>
    let nextAdj : Nat := if next_minutes < curr_minutes then next_minutes + 1440 else next_minutes
    let duration : Int := (nextAdj : Int) - (curr_minutes : Int)
    { time := a.time, category := a.category, description := a.description,
      duration_minutes := some duration,
      duration_hours := if duration ≠ 0 then mkRat duration 60 else 0 }
  | _, _ =>
    { time := a.time, category := a.category, description := a.description,
      duration_minutes := none, duration_hours := 0 }

/-- The last chronological activity gets no duration. -/
def lastActivity (a : RawActivity) : Activity :=
  { time := a.time, category := a.category, description := a.description,
    duration_minutes := none, duration_hours := 0 }

/-- The duration loop over the chronological activity list: each activity
except the last is paired with its successor; the last gets a null
duration. -/
def durAux : List RawActivity → List Activity
  | [] => []
  | [a] => [lastActivity a]
  | a :: b :: rest => withDuration a b :: durAux (b :: rest)

/-- A day after derivation: parsed date and chronological activities with
durations. -/
structure DerivedDay where
  date : String
  day_of_week : String
  start_time : String
  end_time : String
  parsed_date : Option Date
  activities : List Activity
deriving DecidableEq

/-- Per-day derivation: parse the date, reverse the raw activity list into
chronological order, and run the duration loop. -/
def deriveDay (d : RawDay) : DerivedDay :=
  { date := d.date, day_of_week := d.day_of_week,
    start_time := d.start_time, end_time := d.end_time,
    parsed_date := parse_date d.date,
    activities := durAux d.activities.reverse }

/-- The fixed `ACTIVITY_CATEGORIES` table. -/
def ACTIVITY_CATEGORIES (code : String) : Option String :=
  if code = "P" then some "Productive"
  else if code = "R" then some "Routine"
  else if code = "E" then some "Eat"
  else if code = "S" then some "Social"
  else if code = "W" then some "Workout"
  else if code = "F" then some "Fun"
  else if code = "GOD" then some "God"
  else if code = "LO" then some "Sleep"
  else none

/-- ASCII lower-casing, Python `str.lower` on the data at hand. -/
def lowerStr (s : String) : String :=
  String.mk (s.data.map Char.toLower)

/-- A row of the flat activity table. -/
structure ActivityRow where
  date : String
  parsed_date : Option Date
  day_of_week : String
  start_time : String
  end_time : String
  activity_time : String
  category : String
  category_name : String
  description : String
  duration_minutes : Option Int
  duration_hours : Rat
deriving DecidableEq

/-- Build one table row from a day and one of its derived activities. -/
def activityRow (day : DerivedDay) (activity : Activity) : ActivityRow :=
  { date := day.date, parsed_date := day.parsed_date,
    day_of_week := day.day_of_week,
    start_time := day.start_time, end_time := day.end_time,
    activity_time := activity.time, category := activity.category,
    category_name := (ACTIVITY_CATEGORIES activity.category).getD "Unknown",
    description := activity.description,
    duration_minutes := activity.duration_minutes,
    duration_hours := activity.duration_hours }

/-- Rows contributed by one day: skip activities whose lower-cased
description is `"lo"`, then skip activities with a null or zero
duration. -/
def rowsOfDay (day : DerivedDay) : List ActivityRow :=
  day.activities.filterMap (fun activity =>
    if lowerStr activity.description = "lo" then none
    else if activity.duration_minutes = none ∨ activity.duration_minutes = some 0 then none
    else some (activityRow day activity))

/-- The flat activity table over all days. -/
def activities_data (days : List DerivedDay) : List ActivityRow :=
  (days.map rowsOfDay).flatten

/-- Sort key of a parsed date; `datetime` ordering is this lexicographic
order on (year, month, day). -/
def dateKey (d : Date) : Nat :=
  d.year * 10000 + d.month * 100 + d.day

/-- Sort key of a day (only days with a parsed date are ever sorted). -/
def dayKey (d : DerivedDay) : Nat :=
  match d.parsed_date with
  | some pd => dateKey pd
  | none => 0

/-- Ordering used by `sorted(..., key=lambda x: x.parsed_date)`. -/
def dayLe (a b : DerivedDay) : Prop :=
  dayKey a ≤ dayKey b

instance : DecidableRel dayLe :=
  fun a b => inferInstanceAs (Decidable (dayKey a ≤ dayKey b))

instance : IsTotal DerivedDay dayLe :=
  ⟨fun a b => Nat.le_total (dayKey a) (dayKey b)⟩

instance : IsTrans DerivedDay dayLe :=
  ⟨fun _ _ _ h1 h2 => Nat.le_trans h1 h2⟩

/-- Days with a successfully parsed date, sorted ascending by that date
(stable, as Python `sorted`). -/
def days_sorted (days : List DerivedDay) : List DerivedDay :=
  List.insertionSort dayLe (days.filter (fun d => d.parsed_date.isSome))

/-- A row of the sleep table. -/
structure SleepRow where
  current_date : String
  next_date : String
  sleep_duration_hours : Rat
deriving DecidableEq

/-- Sleep interval contributed by one adjacent pair of date-sorted days:
next day's start minus current day's end in minutes, with 1440 added to
the next start when it is numerically smaller, reported in hours; no
interval when either boundary time fails the HHMM check. -/
def sleepOfPair (cur nxt : DerivedDay) : Option SleepRow :=
  match time_to_minutes cur.end_time, time_to_minutes nxt.start_time with
  | some current_end, some next_start =>
    let sleep_duration : Int :=
      if next_start < current_end then ((next_start : Int) + 1440) - (current_end : Int)
      else (next_start : Int) - (current_end : Int)
    some { current_date := cur.date, next_date := nxt.date,
           sleep_duration_hours := mkRat sleep_duration 60 }
  | _, _ => none

/-- The sleep table: one optional interval per adjacent pair of the
date-sorted days. -/
def sleep_data (days : List DerivedDay) : List SleepRow :=
  ((days_sorted days).zip (days_sorted days).tail).filterMap
    (fun p => sleepOfPair p.1 p.2)

/-- The three structures returned by `load_and_parse_data`. -/
structure ParseResult where
  activities_df : List ActivityRow
  sleep_df : List SleepRow
  days_data : List DerivedDay
deriving DecidableEq

/-- The derive-and-emit pipeline applied to an already split line list. -/
def parseResultOfLines (lines : List (List Char)) : ParseResult :=
  let days := (parse_days lines).map deriveDay
  { activities_df := activities_data days,
    sleep_df := sleep_data days,
    days_data := days }

/-- `file_content.strip().split('\n')`. -/
def textLines (text : String) : List (List Char) :=
  splitOnCh '\n' (trimCh text.data)

/-- `load_and_parse_data`: the whole parse-and-derive transformation. -/
def load_and_parse_data (file_content : String) : ParseResult :=
  parseResultOfLines (textLines file_content)

/-! Infrastructure lemmas about stripping and the line loop. -/

theorem head?_dropWhile_false (p : Char → Bool) (l : List Char) :
    ∀ c, (l.dropWhile p).head? = some c → p c = false := by
  induction l with
  | nil => intro c h; simp at h
  | cons a t ih =>
    intro c h
    by_cases hp : p a
    · rw [List.dropWhile_cons, if_pos hp] at h
      exact ih c h
    · rw [List.dropWhile_cons, if_neg hp] at h
      simp only [List.head?_cons, Option.some.injEq] at h
      subst h
      simpa using hp

theorem dropWhile_eq_self_of_head (p : Char → Bool) (l : List Char)
    (h : ∀ c, l.head? = some c → p c = false) : l.dropWhile p = l := by
  cases l with
  | nil => rfl
  | cons a t =>
    have ha := h a rfl
    rw [List.dropWhile_cons, if_neg (by simp [ha])]

theorem getLast?_dropWhile (p : Char → Bool) (l : List Char)
    (h : l.dropWhile p ≠ []) : (l.dropWhile p).getLast? = l.getLast? := by
  induction l with
  | nil => simp at h
  | cons a t ih =>
    by_cases hp : p a
    · rw [List.dropWhile_cons, if_pos hp] at h ⊢
      rw [ih h]
      cases t with
      | nil => simp at h
      | cons b t2 => exact (List.getLast?_cons_cons).symm
    · rw [List.dropWhile_cons, if_neg (by simp [hp])]

theorem trimCh_head (cs : List Char) :
    ∀ c, (trimCh cs).head? = some c → isWs c = false := by
  intro c h
  unfold trimCh at h
  rw [List.head?_reverse] at h
  by_cases hC : (List.dropWhile isWs (cs.dropWhile isWs).reverse) = []
  · rw [hC] at h; simp at h
  · rw [getLast?_dropWhile _ _ hC, List.getLast?_reverse] at h
    exact head?_dropWhile_false _ _ c h

theorem trimCh_getLast (cs : List Char) :
    ∀ c, (trimCh cs).getLast? = some c → isWs c = false := by
  intro c h
  unfold trimCh at h
  rw [List.getLast?_reverse] at h
  exact head?_dropWhile_false _ _ c h

theorem trimCh_idem (cs : List Char) : trimCh (trimCh cs) = trimCh cs := by
  have h1 : (trimCh cs).dropWhile isWs = trimCh cs :=
    dropWhile_eq_self_of_head _ _ (trimCh_head cs)
  have h2 : (trimCh cs).reverse.dropWhile isWs = (trimCh cs).reverse := by
    apply dropWhile_eq_self_of_head
    intro c hc
    rw [List.head?_reverse] at hc
    exact trimCh_getLast cs c hc
  show (((trimCh cs).dropWhile isWs).reverse.dropWhile isWs).reverse = trimCh cs
  rw [h1, h2, List.reverse_reverse]

theorem parse_day_header_trim (l : List Char) :
    parse_day_header (trimCh l) = parse_day_header l := by
  unfold parse_day_header
  rw [trimCh_idem]

theorem parse_activity_record_trim (l : List Char) :
    parse_activity_record (trimCh l) = parse_activity_record l := by
  unfold parse_activity_record
  rw [trimCh_idem]

theorem parse_day_header_nil : parse_day_header [] = none := rfl

theorem parse_line_step_skip (st : ParseState) (g : List Char)
    (hH : parse_day_header g = none) (hA : parse_activity_record g = none) :
    parse_line_step st g = st := by
  unfold parse_line_step
  by_cases he : trimCh g = []
  · simp [he]
  · rw [if_neg he, parse_day_header_trim, hH, parse_activity_record_trim, hA]
    rcases st with ⟨ds, cur⟩
    cases cur <;> rfl

theorem parse_days_insert_skip (L1 L2 : List (List Char)) (g : List Char)
    (hH : parse_day_header g = none) (hA : parse_activity_record g = none) :
    parse_days (L1 ++ g :: L2) = parse_days (L1 ++ L2) := by
  unfold parse_days
  rw [List.foldl_append, List.foldl_append, List.foldl_cons,
    parse_line_step_skip _ _ hH hA]

theorem flushState_parse_line_step (st : ParseState) (l : List Char) :
    (flushState (parse_line_step st l)).length
      = (flushState st).length + (if (parse_day_header l).isSome then 1 else 0) := by
  unfold parse_line_step
  by_cases he : trimCh l = []
  · have hH : parse_day_header l = none := by
      rw [← parse_day_header_trim l, he, parse_day_header_nil]
    simp [he, hH]
  · rw [if_neg he]
    cases hph : parse_day_header (trimCh l) with
    | some h =>
      have hl : parse_day_header l = some h := by rw [← parse_day_header_trim l, hph]
      rw [hl]
      rcases st with ⟨ds, cur⟩
      cases cur <;> simp [flushState]
    | none =>
      have hl : parse_day_header l = none := by rw [← parse_day_header_trim l, hph]
      rw [hl]
      rcases st with ⟨ds, cur⟩
      cases cur with
      | none => simp
      | some d =>
        cases parse_activity_record (trimCh l) <;> simp [flushState]

theorem flushState_foldl (lines : List (List Char)) :
    ∀ st : ParseState,
      (flushState (lines.foldl parse_line_step st)).length
        = (flushState st).length
            + lines.countP (fun l => (parse_day_header l).isSome) := by
  induction lines with
  | nil => intro st; simp
  | cons l rest ih =>
    intro st
    rw [List.foldl_cons, ih, flushState_parse_line_step, List.countP_cons]
    omega

theorem parse_days_length_eq (lines : List (List Char)) :
    (parse_days lines).length
      = lines.countP (fun l => (parse_day_header l).isSome) := by
  unfold parse_days
  rw [flushState_foldl]
  simp [flushState]

/-! Lemmas about the duration derivation. -/

theorem time_to_minutes_le (s : String) (m : Nat)
    (h : time_to_minutes s = some m) : m ≤ 1439 := by
  simp only [time_to_minutes] at h
  split at h
  · exact absurd h (by simp)
  · split at h
    · exact absurd h (by simp)
    · rename_i hrange
      simp only [Option.some.injEq] at h
      push_neg at hrange
      omega

theorem durAux_cons_cons (a b : RawActivity) (rest : List RawActivity) :
    durAux (a :: b :: rest) = withDuration a b :: durAux (b :: rest) := rfl

theorem withDuration_duration (a b : RawActivity) (c n : Nat)
    (hc : time_to_minutes a.time = some c) (hn : time_to_minutes b.time = some n) :
    (withDuration a b).duration_minutes
      = some (((if n < c then n + 1440 else n : Nat) : Int) - (c : Int)) := by
  unfold withDuration
  rw [hc, hn]

theorem durAux_getElem (l : List RawActivity) :
    ∀ (i : Nat) (a b : RawActivity) (c n : Nat),
      l[i]? = some a → l[i + 1]? = some b →
      time_to_minutes a.time = some c → time_to_minutes b.time = some n →
      ((durAux l)[i]?).map Activity.duration_minutes
        = some (some (((if n < c then n + 1440 else n : Nat) : Int) - (c : Int))) := by
  induction l with
  | nil => intro i a b c n ha _ _ _; simp at ha
  | cons x xs ih =>
    intro i a b c n ha hb hc hn
    cases xs with
    | nil =>
      cases i with
      | zero => simp at hb
      | succ j => simp at ha
    | cons y t =>
      cases i with
      | zero =>
        rw [List.getElem?_cons_zero, Option.some.injEq] at ha
        rw [List.getElem?_cons_succ, List.getElem?_cons_zero, Option.some.injEq] at hb
        subst ha; subst hb
        rw [durAux_cons_cons, List.getElem?_cons_zero, Option.map_some',
          withDuration_duration x y c n hc hn]
      | succ j =>
        have ha' : (y :: t)[j]? = some a := by simpa using ha
        have hb' : (y :: t)[j + 1]? = some b := by simpa using hb
        have hres := ih j a b c n ha' hb' hc hn
        rw [durAux_cons_cons, List.getElem?_cons_succ]
        exact hres

theorem durAux_duration_nonneg (l : List RawActivity) :
    ∀ act ∈ durAux l, ∀ d : Int, act.duration_minutes = some d → 0 ≤ d := by
  induction l with
  | nil => intro act h; simp [durAux] at h
  | cons x xs ih =>
    cases xs with
    | nil =>
      intro act h d hd
      simp only [durAux, List.mem_singleton] at h
      subst h
      simp [lastActivity] at hd
    | cons y t =>
      intro act h d hd
      rw [durAux_cons_cons] at h
      rcases List.mem_cons.mp h with h1 | h2
      · subst h1
        unfold withDuration at hd
        cases hc : time_to_minutes x.time with
        | none => rw [hc] at hd; simp at hd
        | some c =>
          cases hn : time_to_minutes y.time with
          | none => rw [hc, hn] at hd; simp at hd
          | some n =>
            rw [hc, hn] at hd
            simp only [Option.some.injEq] at hd
            have hcle : c ≤ 1439 := time_to_minutes_le _ _ hc
            by_cases hlt : n < c <;> simp [hlt] at hd <;> omega
      · exact ih act h2 d hd

theorem durAux_getLast (l : List RawActivity) :
    ∀ act, (durAux l).getLast? = some act → act.duration_minutes = none := by
  induction l with
  | nil => intro act h; simp [durAux] at h
  | cons x xs ih =>
    cases xs with
    | nil =>
      intro act h
      simp only [durAux, List.getLast?_singleton, Option.some.injEq] at h
      subst h
      rfl
    | cons y t =>
      intro act h
      rw [durAux_cons_cons] at h
      cases t with
      | nil =>
        rw [show durAux [y] = [lastActivity y] from rfl, List.getLast?_cons_cons,
          List.getLast?_singleton, Option.some.injEq] at h
        subst h
        rfl
      | cons z t2 =>
        rw [durAux_cons_cons, List.getLast?_cons_cons] at h
        exact ih act (by rw [durAux_cons_cons]; exact h)

/-! Lemmas about the emitted activity table. -/

theorem rowsOfDay_prop (day : DerivedDay) (row : ActivityRow)
    (h : row ∈ rowsOfDay day) :
    lowerStr row.description ≠ "lo"
      ∧ row.duration_minutes ≠ none ∧ row.duration_minutes ≠ some 0 := by
  unfold rowsOfDay at h
  rcases List.mem_filterMap.mp h with ⟨act, _, hact⟩
  by_cases h1 : lowerStr act.description = "lo"
  · rw [if_pos h1] at hact; simp at hact
  · rw [if_neg h1] at hact
    by_cases h2 : act.duration_minutes = none ∨ act.duration_minutes = some 0
    · rw [if_pos h2] at hact; simp at hact
    · rw [if_neg h2] at hact
      rw [Option.some.injEq] at hact
      subst hact
      push_neg at h2
      exact ⟨h1, h2.1, h2.2⟩

theorem activities_data_prop (days : List DerivedDay) (row : ActivityRow)
    (h : row ∈ activities_data days) :
    lowerStr row.description ≠ "lo"
      ∧ row.duration_minutes ≠ none ∧ row.duration_minutes ≠ some 0 := by
  unfold activities_data at h
  rcases List.mem_flatten.mp h with ⟨rows, hrows, hrow⟩
  rcases List.mem_map.mp hrows with ⟨day, _, rfl⟩
  exact rowsOfDay_prop day row hrow

theorem rowsOfDay_dropLast (day : DerivedDay) (la : Activity)
    (hlast : day.activities.getLast? = some la)
    (hdur : la.duration_minutes = none) :
    rowsOfDay day = rowsOfDay { day with activities := day.activities.dropLast } := by
  have hne : day.activities ≠ [] := by
    intro h0; rw [h0] at hlast; simp at hlast
  have hla : day.activities.getLast hne = la := by
    rw [List.getLast?_eq_getLast day.activities hne, Option.some.injEq] at hlast
    exact hlast
  have hdecomp : day.activities.dropLast ++ [la] = day.activities := by
    rw [← hla]; exact List.dropLast_append_getLast hne
  unfold rowsOfDay
  conv_lhs => rw [← hdecomp]
  rw [List.filterMap_append]
  have hfla :
      (if lowerStr la.description = "lo" then none
       else if la.duration_minutes = none ∨ la.duration_minutes = some 0 then none
       else some (activityRow day la)) = (none : Option ActivityRow) := by
    by_cases h1 : lowerStr la.description = "lo"
    · simp [h1]
    · simp [h1, hdur]
  simp only [List.filterMap_cons, hfla, List.filterMap_nil, List.append_nil]
  rfl

/-! Lemmas about the sleep derivation. -/

theorem sleepOfPair_some (cur nxt : DerivedDay) (ce ns : Nat)
    (hce : time_to_minutes cur.end_time = some ce)
    (hns : time_to_minutes nxt.start_time = some ns) :
    sleepOfPair cur nxt = some
      { current_date := cur.date, next_date := nxt.date,
        sleep_duration_hours :=
          mkRat (if ns < ce then ((ns : Int) + 1440) - (ce : Int)
                 else (ns : Int) - (ce : Int)) 60 } := by
  unfold sleepOfPair
  rw [hce, hns]

theorem sleepOfPair_none (cur nxt : DerivedDay)
    (h : time_to_minutes cur.end_time = none
      ∨ time_to_minutes nxt.start_time = none) :
    sleepOfPair cur nxt = none := by
  unfold sleepOfPair
  rcases h with h | h
  · rw [h]
  · cases hc : time_to_minutes cur.end_time with
    | none => rfl
    | some ce => rw [h]

theorem sleep_data_bounds (days : List DerivedDay) (row : SleepRow)
    (h : row ∈ sleep_data days) :
    0 ≤ row.sleep_duration_hours ∧ row.sleep_duration_hours < 24 := by
  unfold sleep_data at h
  rcases List.mem_filterMap.mp h with ⟨p, _, hp⟩
  cases hce : time_to_minutes p.1.end_time with
  | none => rw [sleepOfPair_none p.1 p.2 (Or.inl hce)] at hp; simp at hp
  | some ce =>
    cases hns : time_to_minutes p.2.start_time with
    | none => rw [sleepOfPair_none p.1 p.2 (Or.inr hns)] at hp; simp at hp
    | some ns =>
      rw [sleepOfPair_some p.1 p.2 ce ns hce hns, Option.some.injEq] at hp
      subst hp
      have hce' := time_to_minutes_le _ _ hce
      have hns' := time_to_minutes_le _ _ hns
      have hm : (0 : Int) ≤ (if ns < ce then ((ns : Int) + 1440) - (ce : Int)
            else (ns : Int) - (ce : Int))
          ∧ (if ns < ce then ((ns : Int) + 1440) - (ce : Int)
            else (ns : Int) - (ce : Int)) ≤ 1439 := by
        by_cases hlt : ns < ce <;> simp [hlt] <;> omega
      rw [Rat.mkRat_eq_div]
      constructor
      · apply div_nonneg
        · exact_mod_cast hm.1
        · norm_num
      · rw [div_lt_iff₀ (by norm_num : (0 : Rat) < (60 : Nat))]
        calc ((if ns < ce then ((ns : Int) + 1440) - (ce : Int)
              else (ns : Int) - (ce : Int) : Int) : Rat) ≤ 1439 := by
              exact_mod_cast hm.2
          _ < 24 * (60 : Nat) := by norm_num

/-! The claims. -/

/-- Claim C1: within every `Day`, durations are computed over the reversed
(chronological) activity list; for each chronological position `i` except
the last, with both times converting to minutes-since-midnight,
`duration_minutes` is `time[i+1] - time[i]` with 1440 added to `time[i+1]`
first when it is numerically smaller than `time[i]`; in particular an
activity at 2330 followed chronologically by one at 0015 gets duration
45 minutes. -/
theorem claim_C1 :
    (∀ text : String,
        (load_and_parse_data text).days_data
          = (parse_days (textLines text)).map deriveDay)
    ∧ (∀ (text : String) (d : RawDay), d ∈ parse_days (textLines text) →
        ∀ (i : Nat) (a b : RawActivity) (c n : Nat),
          (d.activities.reverse)[i]? = some a →
          (d.activities.reverse)[i + 1]? = some b →
          time_to_minutes a.time = some c →
          time_to_minutes b.time = some n →
          (((deriveDay d).activities)[i]?).map Activity.duration_minutes
            = some (some (((if n < c then n + 1440 else n : Nat) : Int) - (c : Int))))
    ∧ (((load_and_parse_data "3/14/24 Th 0700-2330\n0015 LO lo\n2330 P x").days_data.map
          (fun d => d.activities.map (fun a => (a.time, a.duration_minutes))))
        = [[("2330", some 45), ("0015", none)]]) := by
  refine ⟨fun _ => rfl, ?_, by decide⟩
  intro text d _ i a b c n ha hb hc hn
  exact durAux_getElem d.activities.reverse i a b c n ha hb hc hn

/-- Claim C1 witness: the 2330/0015 day from the claim, instantiating the
duration rule at chronological position 0. -/
theorem claim_C1_witness :
    (((deriveDay ⟨"3/14/24", "Th", "0700", "2330",
          [⟨"0015", "LO", "lo"⟩, ⟨"2330", "P", "x"⟩]⟩).activities)[0]?).map
        Activity.duration_minutes
      = some (some (((if 15 < 1410 then 15 + 1440 else 15 : Nat) : Int) - (1410 : Int))) :=
  claim_C1.2.1 "3/14/24 Th 0700-2330\n0015 LO lo\n2330 P x"
    ⟨"3/14/24", "Th", "0700", "2330", [⟨"0015", "LO", "lo"⟩, ⟨"2330", "P", "x"⟩]⟩
    (by decide) 0 ⟨"2330", "P", "x"⟩ ⟨"0015", "LO", "lo"⟩ 1410 15
    (by decide) (by decide) (by decide) (by decide)

/-- Claim C2: the sleep table is derived from the days with a parsed date,
sorted ascending by date; each adjacent pair with valid boundary times
yields next start minus current end with 1440 added on wraparound,
reported in hours; a pair with an invalid boundary time yields no
interval; end 2300 with next start 0600 gives 7 hours and end 0100 with
next start 0030 gives 23.5 hours. -/
theorem claim_C2 :
    (∀ text : String,
        List.Sorted dayLe (days_sorted (load_and_parse_data text).days_data))
    ∧ (∀ text : String,
        (days_sorted (load_and_parse_data text).days_data).Perm
          ((load_and_parse_data text).days_data.filter (fun d => d.parsed_date.isSome)))
    ∧ (∀ (cur nxt : DerivedDay) (ce ns : Nat),
        time_to_minutes cur.end_time = some ce →
        time_to_minutes nxt.start_time = some ns →
        sleepOfPair cur nxt = some
          { current_date := cur.date, next_date := nxt.date,
            sleep_duration_hours :=
              mkRat (if ns < ce then ((ns : Int) + 1440) - (ce : Int)
                     else (ns : Int) - (ce : Int)) 60 })
    ∧ (∀ cur nxt : DerivedDay,
        time_to_minutes cur.end_time = none
          ∨ time_to_minutes nxt.start_time = none →
        sleepOfPair cur nxt = none)
    ∧ (∀ text : String,
        (load_and_parse_data text).sleep_df
          = ((days_sorted (load_and_parse_data text).days_data).zip
              (days_sorted (load_and_parse_data text).days_data).tail).filterMap
                (fun p => sleepOfPair p.1 p.2))
    ∧ sleepOfPair ⟨"3/14/24", "Th", "0700", "2300", some ⟨2024, 3, 14⟩, []⟩
        ⟨"3/15/24", "F", "0600", "2300", some ⟨2024, 3, 15⟩, []⟩
        = some ⟨"3/14/24", "3/15/24", 7⟩
    ∧ sleepOfPair ⟨"3/14/24", "Th", "0700", "0100", some ⟨2024, 3, 14⟩, []⟩
        ⟨"3/15/24", "F", "0030", "2300", some ⟨2024, 3, 15⟩, []⟩
        = some ⟨"3/14/24", "3/15/24", mkRat 47 2⟩ :=
  ⟨fun _ => List.sorted_insertionSort dayLe _,
   fun _ => List.perm_insertionSort dayLe _,
   sleepOfPair_some,
   sleepOfPair_none,
   fun _ => rfl,
   by decide,
   by decide⟩

/-- Claim C2 witness: the sleep rule instantiated on the 2300/0600 pair. -/
theorem claim_C2_witness :
    sleepOfPair ⟨"3/14/24", "Th", "0700", "2300", some ⟨2024, 3, 14⟩, []⟩
        ⟨"3/15/24", "F", "0600", "2300", some ⟨2024, 3, 15⟩, []⟩
      = some { current_date := "3/14/24", next_date := "3/15/24",
               sleep_duration_hours :=
                 mkRat (if 360 < 1380 then ((360 : Int) + 1440) - (1380 : Int)
                        else (360 : Int) - (1380 : Int)) 60 } :=
  claim_C2.2.2.1 ⟨"3/14/24", "Th", "0700", "2300", some ⟨2024, 3, 14⟩, []⟩
    ⟨"3/15/24", "F", "0600", "2300", some ⟨2024, 3, 15⟩, []⟩ 1380 360
    (by decide) (by decide)

/-- Claim C3: the last chronological activity of every day has a null
duration; no emitted row has a description case-insensitively equal to
"lo" or a null or zero duration; consequently the rows of a day are
exactly the rows of that day without its last activity. -/
theorem claim_C3 :
    (∀ (text : String) (day : DerivedDay) (act : Activity),
        day ∈ (load_and_parse_data text).days_data →
        day.activities.getLast? = some act →
        act.duration_minutes = none)
    ∧ (∀ (text : String) (row : ActivityRow),
        row ∈ (load_and_parse_data text).activities_df →
        lowerStr row.description ≠ "lo"
          ∧ row.duration_minutes ≠ none ∧ row.duration_minutes ≠ some 0)
    ∧ (∀ (text : String) (day : DerivedDay) (act : Activity),
        day ∈ (load_and_parse_data text).days_data →
        day.activities.getLast? = some act →
        rowsOfDay day = rowsOfDay { day with activities := day.activities.dropLast }) := by
  refine ⟨?_, ?_, ?_⟩
  · intro text day act hday hlast
    rcases List.mem_map.mp hday with ⟨raw, _, rfl⟩
    exact durAux_getLast raw.activities.reverse act hlast
  · intro text row h
    exact activities_data_prop _ row h
  · intro text day act hday hlast
    refine rowsOfDay_dropLast day act hlast ?_
    rcases List.mem_map.mp hday with ⟨raw, _, rfl⟩
    exact durAux_getLast raw.activities.reverse act hlast

/-- Claim C3 witness: the LO-exclusion and duration conditions
instantiated on a concrete emitted row. -/
theorem claim_C3_witness :
    lowerStr (ActivityRow.mk "3/14/24" (some ⟨2024, 3, 14⟩) "Th" "0700" "2330"
        "2200" "P" "Productive" "study" (some 90) (mkRat 3 2)).description ≠ "lo"
      ∧ (ActivityRow.mk "3/14/24" (some ⟨2024, 3, 14⟩) "Th" "0700" "2330"
          "2200" "P" "Productive" "study" (some 90) (mkRat 3 2)).duration_minutes ≠ none
      ∧ (ActivityRow.mk "3/14/24" (some ⟨2024, 3, 14⟩) "Th" "0700" "2330"
          "2200" "P" "Productive" "study" (some 90) (mkRat 3 2)).duration_minutes ≠ some 0 :=
  claim_C3.2.1 "3/14/24 Th 0700-2330\n2330 LO lo\n2200 P study\n2000 S call"
    (ActivityRow.mk "3/14/24" (some ⟨2024, 3, 14⟩) "Th" "0700" "2330"
      "2200" "P" "Productive" "study" (some 90) (mkRat 3 2))
    (by decide)

/-- Claim C4: every derived activity of every day of every input with a
non-null duration has a non-negative duration. -/
theorem claim_C4 (text : String) (day : DerivedDay) (act : Activity) (d : Int)
    (hday : day ∈ (load_and_parse_data text).days_data)
    (hact : act ∈ day.activities)
    (hdur : act.duration_minutes = some d) : 0 ≤ d := by
  rcases List.mem_map.mp hday with ⟨raw, _, rfl⟩
  exact durAux_duration_nonneg raw.activities.reverse act hact d hdur

/-- Claim C4 witness: the non-negativity instantiated on a concrete
derived activity with duration 90. -/
theorem claim_C4_witness : (0 : Int) ≤ 90 :=
  claim_C4 "3/14/24 Th 0700-2330\n2330 LO lo\n2200 P study\n2000 S call"
    ⟨"3/14/24", "Th", "0700", "2330", some ⟨2024, 3, 14⟩,
      [⟨"2000", "S", "call", some 120, 2⟩,
       ⟨"2200", "P", "study", some 90, mkRat 3 2⟩,
       ⟨"2330", "LO", "lo", none, 0⟩]⟩
    ⟨"2200", "P", "study", some 90, mkRat 3 2⟩ 90
    (by decide) (by decide) (by decide)

/-- Claim C5: the parser is total, every day opened by a header is
eventually emitted (the day count equals the header-line count, with no
trailing-header requirement), and the concrete two-header input with
three valid activities per day plus one malformed line yields exactly two
days with three activities each. -/
theorem claim_C5 :
    (∀ lines : List (List Char),
        (parse_days lines).length
          = lines.countP (fun l => (parse_day_header l).isSome))
    ∧ ((parse_days (textLines
          "3/14/24 Th 0700-2330\n2330 LO lo\n2200 P study\n2000 S call\nbad line !!!\n3/15/24 F 0800-2300\n2300 LO lo\n2100 F tv\n0900 E bfast")).map
            (fun d => (d.date, d.activities.length))
        = [("3/14/24", 3), ("3/15/24", 3)]) :=
  ⟨parse_days_length_eq, by decide⟩

/-- Claim C6 (amended): a garbled line that parses as neither a day
header nor an activity record leaves the entire derived output unchanged
wherever it is inserted. -/
theorem claim_C6 (L1 L2 : List (List Char)) (g : List Char)
    (hH : parse_day_header g = none) (hA : parse_activity_record g = none) :
    parseResultOfLines (L1 ++ g :: L2) = parseResultOfLines (L1 ++ L2) := by
  unfold parseResultOfLines
  rw [parse_days_insert_skip L1 L2 g hH hA]

/-- Claim C6 witness: inserting the non-parsing line "bad line !!!"
mid-day leaves the output unchanged. -/
theorem claim_C6_witness :
    parseResultOfLines [("3/14/24 Th 0700-2330").data, ("2330 LO lo").data,
        ("bad line !!!").data, ("2200 P study").data]
      = parseResultOfLines [("3/14/24 Th 0700-2330").data, ("2330 LO lo").data,
          ("2200 P study").data] :=
  claim_C6 [("3/14/24 Th 0700-2330").data, ("2330 LO lo").data]
    [("2200 P study").data] ("bad line !!!").data (by decide) (by decide)

/-- Claim C6 counterexample: a garbled activity line with hour 25 parses
as an activity record, and inserting it nulls the duration of the
chronologically preceding activity ("study"), which disappears from the
emitted table; the two inputs differ only in that one line. -/
theorem claim_C6_counterexample :
    ((load_and_parse_data
        "3/14/24 Th 0700-2330\n2330 LO lo\n2200 P study\n2000 S call").activities_df.map
          (fun r => (r.description, r.duration_minutes))
      = [("call", some 120), ("study", some 90)])
    ∧ ((load_and_parse_data
        "3/14/24 Th 0700-2330\n2330 LO lo\n2500 P garbage\n2200 P study\n2000 S call").activities_df.map
          (fun r => (r.description, r.duration_minutes))
      = [("call", some 120)])
    ∧ parse_activity_record ("2500 P garbage").data
        = some ⟨"2500", "P", "garbage"⟩ := by
  exact ⟨by decide, by decide, by decide⟩

/-- Claim C7 (amended): a line parses to an activity record exactly when
splitting its stripped form on single space characters (at most twice)
yields at least two fields with a first field of exactly 4 digit
characters; the description is the third field or defaults to empty. -/
theorem claim_C7 (line : List Char) (r : RawActivity) :
    parse_activity_record line = some r ↔
      ∃ (t c : List Char) (rest : List (List Char)),
        pySplitSpace2 (trimCh line) = t :: c :: rest
        ∧ t.length = 4 ∧ t.all Char.isDigit = true
        ∧ r = { time := String.mk t, category := String.mk c,
                description := String.mk (rest.headD []) } := by
  unfold parse_activity_record
  cases hsp : pySplitSpace2 (trimCh line) with
  | nil => simp
  | cons t r0 =>
    cases r0 with
    | nil => simp
    | cons c rest =>
      dsimp only
      by_cases hv : t.length = 4 ∧ t.all Char.isDigit
      · rw [if_pos hv]
        constructor
        · intro h
          rw [Option.some.injEq] at h
          refine ⟨t, c, rest, rfl, hv.1, hv.2, ?_⟩
          rw [← h]
          cases rest <;> rfl
        · rintro ⟨t', c', rest', heq, h4, hdig, hr⟩
          injection heq with e1 e2
          injection e2 with e3 e4
          subst e1; subst e3; subst e4
          subst hr
          rw [Option.some.injEq]
          cases rest <;> rfl
      · rw [if_neg hv]
        constructor
        · intro h; simp at h
        · rintro ⟨t', c', rest', heq, h4, hdig, _⟩
          injection heq with e1 _
          subst e1
          exact absurd ⟨h4, hdig⟩ hv

/-- Claim C7 witness: the characterization applied to a concrete valid
activity line. -/
theorem claim_C7_witness :
    parse_activity_record ("2330 LO lo").data = some ⟨"2330", "LO", "lo"⟩ :=
  (claim_C7 ("2330 LO lo").data ⟨"2330", "LO", "lo"⟩).mpr
    ⟨'2' :: '3' :: '3' :: '0' :: [], 'L' :: 'O' :: [], ['l' :: 'o' :: []],
      by decide, by decide, by decide, by decide⟩

/-- Claim C7 counterexample: the line "1234" is non-empty, is not a day
header, and its first space-delimited field is exactly 4 digits, yet it
parses to no record (a second field is required); likewise a tab-separated
"1234\tP" parses to no record although it has two whitespace-delimited
fields. -/
theorem claim_C7_counterexample :
    (pySplitSpace2 (trimCh ("1234").data)).headD []
        = '1' :: '2' :: '3' :: '4' :: []
      ∧ ('1' :: '2' :: '3' :: '4' :: []).length = 4
      ∧ ('1' :: '2' :: '3' :: '4' :: []).all Char.isDigit = true
      ∧ parse_day_header ("1234").data = none
      ∧ parse_activity_record ("1234").data = none
      ∧ parse_activity_record ("1234\tP").data = none := by
  exact ⟨by decide, by decide, by decide, by decide, by decide, by decide⟩

/-- Claim C8: two-digit years resolve with cutoff 50 (below 50 into the
2000s, 50 or more into the 1900s); "3/14/24" parses to year 2024 and
"3/14/67" to year 1967. -/
theorem claim_C8 :
    (∀ (s : String) (d : Date) (ms ds ys : List Char) (y : Nat),
        splitOnCh '/' s.data = [ms, ds, ys] →
        strToNat ys = some y →
        parse_date s = some d →
        d.year = if y < 50 then 2000 + y else 1900 + y)
    ∧ (parse_date "3/14/24").map Date.year = some 2024
    ∧ (parse_date "3/14/67").map Date.year = some 1967 := by
  refine ⟨?_, by decide, by decide⟩
  intro s d ms ds ys y hsplit hy hparse
  unfold parse_date at hparse
  rw [hsplit] at hparse
  dsimp only at hparse
  cases hms : strToNat ms with
  | none => rw [hms] at hparse; simp at hparse
  | some mo =>
    cases hds : strToNat ds with
    | none => rw [hms, hds] at hparse; simp at hparse
    | some da =>
      rw [hms, hds, hy] at hparse
      dsimp only at hparse
      unfold mkValidDate at hparse
      by_cases hy50 : y < 50
      · rw [if_pos hy50] at hparse
        rw [if_pos hy50]
        split at hparse
        · rw [Option.some.injEq] at hparse
          rw [← hparse]
          show y + 2000 = 2000 + y
          omega
        · simp at hparse
      · rw [if_neg hy50] at hparse
        rw [if_neg hy50]
        split at hparse
        · rw [Option.some.injEq] at hparse
          rw [← hparse]
          show y + 1900 = 1900 + y
          omega
        · simp at hparse

/-- Claim C8 witness: the year rule instantiated at "3/14/24". -/
theorem claim_C8_witness :
    (Date.mk 2024 3 14).year = if 24 < 50 then 2000 + 24 else 1900 + 24 :=
  claim_C8.1 "3/14/24" ⟨2024, 3, 14⟩ ('3' :: []) ('1' :: '4' :: [])
    ('2' :: '4' :: []) 24 (by decide) (by decide) (by decide)

/-- Claim C9: the transformation is a pure function of the input text:
two runs on the same text produce structurally identical activity tables,
sleep tables, and day lists. -/
theorem claim_C9 (text : String) (r1 r2 : ParseResult)
    (h1 : r1 = load_and_parse_data text) (h2 : r2 = load_and_parse_data text) :
    r1.activities_df = r2.activities_df
      ∧ r1.sleep_df = r2.sleep_df
      ∧ r1.days_data = r2.days_data := by
  subst h1; subst h2
  exact ⟨rfl, rfl, rfl⟩

/-- Claim C9 witness: two runs on a concrete text agree. -/
theorem claim_C9_witness :
    (load_and_parse_data "3/14/24 Th 0700-2330\n2330 LO lo").activities_df
        = (load_and_parse_data "3/14/24 Th 0700-2330\n2330 LO lo").activities_df
      ∧ (load_and_parse_data "3/14/24 Th 0700-2330\n2330 LO lo").sleep_df
        = (load_and_parse_data "3/14/24 Th 0700-2330\n2330 LO lo").sleep_df
      ∧ (load_and_parse_data "3/14/24 Th 0700-2330\n2330 LO lo").days_data
        = (load_and_parse_data "3/14/24 Th 0700-2330\n2330 LO lo").days_data :=
  claim_C9 "3/14/24 Th 0700-2330\n2330 LO lo" _ _ rfl rfl

/-- Claim C10: every emitted sleep interval lies in [0, 24) hours; the
wraparound branch produces between 1 and 1439 minutes and the plain
branch between 0 and 1439 minutes. -/
theorem claim_C10 :
    (∀ (text : String) (row : SleepRow),
        row ∈ (load_and_parse_data text).sleep_df →
        0 ≤ row.sleep_duration_hours ∧ row.sleep_duration_hours < 24)
    ∧ (∀ (cur nxt : DerivedDay) (ce ns : Nat) (row : SleepRow),
        time_to_minutes cur.end_time = some ce →
        time_to_minutes nxt.start_time = some ns →
        ns < ce → sleepOfPair cur nxt = some row →
        ∃ m : Int, 1 ≤ m ∧ m ≤ 1439 ∧ row.sleep_duration_hours = mkRat m 60)
    ∧ (∀ (cur nxt : DerivedDay) (ce ns : Nat) (row : SleepRow),
        time_to_minutes cur.end_time = some ce →
        time_to_minutes nxt.start_time = some ns →
        ce ≤ ns → sleepOfPair cur nxt = some row →
        ∃ m : Int, 0 ≤ m ∧ m ≤ 1439 ∧ row.sleep_duration_hours = mkRat m 60) := by
  refine ⟨?_, ?_, ?_⟩
  · intro text row h
    exact sleep_data_bounds _ row h
  · intro cur nxt ce ns row hce hns hlt hrow
    rw [sleepOfPair_some cur nxt ce ns hce hns, Option.some.injEq] at hrow
    subst hrow
    have hce' := time_to_minutes_le _ _ hce
    refine ⟨(ns : Int) + 1440 - (ce : Int), by omega, by omega, ?_⟩
    simp [hlt]
  · intro cur nxt ce ns row hce hns hle hrow
    rw [sleepOfPair_some cur nxt ce ns hce hns, Option.some.injEq] at hrow
    subst hrow
    have hns' := time_to_minutes_le _ _ hns
    refine ⟨(ns : Int) - (ce : Int), by omega, by omega, ?_⟩
    simp [Nat.not_lt.mpr hle]

/-- Claim C10 witness: the bounds instantiated on a concrete emitted
sleep row of 7 hours. -/
theorem claim_C10_witness :
    0 ≤ (SleepRow.mk "3/14/24" "3/15/24" 7).sleep_duration_hours
      ∧ (SleepRow.mk "3/14/24" "3/15/24" 7).sleep_duration_hours < 24 :=
  claim_C10.1 "3/14/24 Th 0700-2300\n3/15/24 F 0600-2300"
    (SleepRow.mk "3/14/24" "3/15/24" 7) (by decide)

end ActivityDashboard
